import Mathlib

/-!
Verification of the connection supervisor and Lua event-dispatch bridge of
kballard/rust-ircbot (src/pkg.rs and src/plugins/irc.rs), as a shallow
embedding in Lean 4.

The embedding covers:
* the ad-hoc reconnect backoff table of `main` (src/pkg.rs lines 79-92);
* the supervisor loop of `main` (src/pkg.rs lines 53-96), modelled as a
  trace of slot updates, connection attempts and sleeps over a finite
  environment-supplied list of attempt outcomes;
* the per-attempt one-shot interrupt handler spawned by `connect`
  (src/pkg.rs lines 116-138), modelled as a counting state machine;
* the Lua dispatch path of src/plugins/irc.rs: the event translation and
  early-return handler check of `lua_dispatch_event` (lines 97-186) as an
  action trace, and the per-handler argument-copy loop of
  `dispatch_event_inner` (lines 200-241) over an explicit table heap;
* `push_user` (lines 243-259) and `getconn`/`activate_conn`/
  `deactivate_conn` (lines 262-294).
-/

/-! ## Reconnect backoff (src/pkg.rs lines 79-92)

The source escalates the delay with an ordered match on inclusive ranges
(Rust 0.9 `a .. b` range patterns are inclusive at both ends):

  0..4 -> 5, 5..9 -> 10, 10..19 -> 20, 20..29 -> 30, 30..59 -> 60,
  61..149 -> 150, 151..299 -> 300, s -> s + 60.
-/

def backoffStep (secs : Nat) : Nat :=
  if secs ≤ 4 then 5
  else if 5 ≤ secs ∧ secs ≤ 9 then 10
  else if 10 ≤ secs ∧ secs ≤ 19 then 20
  else if 20 ≤ secs ∧ secs ≤ 29 then 30
  else if 30 ≤ secs ∧ secs ≤ 59 then 60
  else if 61 ≤ secs ∧ secs ≤ 149 then 150
  else if 151 ≤ secs ∧ secs ≤ 299 then 300
  else secs + 60

/-! ## Supervisor loop (src/pkg.rs lines 23-100)

`conf.reconnect_time : Option<uint>` and `conf.reconnect_backoff : bool`
are the only configuration fields the loop reads. A connection attempt
(the call to `connect`) returns `conn::Result`, i.e. success or an error
that is either `ErrIO(..)` or some other variant. The loop is modelled as
a function of the finite list of outcomes the environment produces for
the successive attempts, emitting a trace of the observable steps in
source order: the slot installation done inside `connect` (line 114), the
attempt itself, the slot clear (line 73, reached only on the error arm:
the `Ok` arm breaks at line 58), and the reconnect sleep (line 78). -/

structure Config where
  reconnectTime : Option Nat
  reconnectBackoff : Bool
  deriving DecidableEq, Repr

inductive ConnError
  | errIO
  | other
  deriving DecidableEq, Repr

inductive ConnResult
  | ok
  | err (e : ConnError)
  deriving DecidableEq, Repr

inductive SupEvent
  | slotSet (chan : Nat)
  | attempt (chan : Nat) (r : ConnResult)
  | slotCleared
  | sleep (secs : Nat)
  deriving DecidableEq, Repr

def supervise (conf : Config) : Option Nat → Nat → List ConnResult → List SupEvent
  | _, _, [] => []
  | delay, chan, r :: rs =>
    SupEvent.slotSet chan :: SupEvent.attempt chan r ::
    match r with
    | ConnResult.ok => []
    | ConnResult.err e =>
      let delay1 := match e with
        | ConnError.errIO => conf.reconnectTime
        | ConnError.other => delay
      SupEvent.slotCleared ::
      match delay1 with
      | none => []
      | some secs =>
        SupEvent.sleep secs ::
        supervise conf
          (if conf.reconnectBackoff then some (backoffStep secs) else some secs)
          (chan + 1) rs

def runSupervisor (conf : Config) (rs : List ConnResult) : List SupEvent :=
  supervise conf conf.reconnectTime 0 rs

def sleeps (es : List SupEvent) : List Nat :=
  es.filterMap fun e => match e with
    | SupEvent.sleep s => some s
    | _ => none

def firstSleep (es : List SupEvent) : Option Nat :=
  (sleeps es).head?

/-! Trace predicates for the control-channel slot discipline. -/

def slotSetPrecedesAttempt : List SupEvent → Bool
  | SupEvent.slotSet c :: SupEvent.attempt c1 r :: rest =>
      decide (c = c1) && slotSetPrecedesAttempt (SupEvent.attempt c1 r :: rest)
  | SupEvent.slotSet _ :: _ => false
  | _ :: rest => slotSetPrecedesAttempt rest
  | [] => true

def failureClearsSlot : List SupEvent → Bool
  | SupEvent.attempt _ (ConnResult.err _) :: SupEvent.slotCleared :: rest =>
      failureClearsSlot (SupEvent.slotCleared :: rest)
  | SupEvent.attempt _ (ConnResult.err _) :: _ => false
  | _ :: rest => failureClearsSlot rest
  | [] => true

def successEndsTrace : List SupEvent → Bool
  | SupEvent.attempt _ ConnResult.ok :: rest => rest.isEmpty
  | _ :: rest => successEndsTrace rest
  | [] => true

/-! ## Signal bridge (src/pkg.rs lines 116-138)

Every call to `connect` builds a fresh `Listener`, registers it for
`Interrupt` and spawns a task that blocks on `listener.port.recv()`; on
its first `Interrupt` the task sends one quit command over its captured
channel clone (`try_send`, best effort), unregisters and exits. A task
spawned for an earlier attempt that never saw an interrupt stays alive
and registered across later attempts (the final `libc::exit(0)` in `main`
exists precisely because such tasks linger). OS signal delivery
(librustuv) invokes every currently registered watcher, so one interrupt
reaches every live handler task, and each of them generates one quit
command and deregisters. The state machine counts registered handler
tasks and generated quit commands over a process history of connection
attempts and interrupt deliveries. -/

structure SigState where
  registered : Nat
  quits : Nat
  deriving DecidableEq, Repr

inductive ProcStep
  | newAttempt
  | interrupt
  deriving DecidableEq, Repr

def sigStep (s : SigState) : ProcStep → SigState
  | ProcStep.newAttempt => ⟨s.registered + 1, s.quits⟩
  | ProcStep.interrupt => ⟨0, s.quits + s.registered⟩

def sigRun (steps : List ProcStep) : SigState :=
  steps.foldl sigStep ⟨0, 0⟩

def countAttempts (steps : List ProcStep) : Nat :=
  steps.countP fun s => match s with
    | ProcStep.newAttempt => true
    | ProcStep.interrupt => false

/-! ## Lua values and the table heap (src/plugins/irc.rs)

Lua strings (both the event-name constants pushed with `pushstring` and
the byte arguments pushed with `pushbytes`) are modelled as Lean strings;
Lua tables have reference semantics, so a table value is a reference into
an explicit heap, and a heap cell is the association list of the table
key-value pairs in insertion order. -/

inductive LuaVal
  | nil
  | str (s : String)
  | tref (r : Nat)
  deriving DecidableEq, Repr

abbrev LuaTable := List (LuaVal × LuaVal)

abbrev Heap := List LuaTable

def isTref : LuaVal → Bool
  | LuaVal.tref _ => true
  | _ => false

def tableGet (t : LuaTable) (k : LuaVal) : Option LuaVal :=
  match t with
  | [] => none
  | (k1, v) :: rest => if k1 = k then some v else tableGet rest k

def tableSet (t : LuaTable) (k v : LuaVal) : LuaTable :=
  match t with
  | [] => [(k, v)]
  | (k1, v1) :: rest => if k1 = k then (k, v) :: rest else (k1, v1) :: tableSet rest k v

def heapGet (h : Heap) (r : Nat) : Option LuaTable :=
  List.get? h r

def heapSet (h : Heap) (r : Nat) (t : LuaTable) : Heap :=
  List.set h r t

/-! ## push_user (src/plugins/irc.rs lines 243-259)

`push_user` creates a table and fills the fields `raw`, `nick`, `user`,
`host` from the `irc::User` accessors. NOTE: the source fills the `host`
field from `user.user()` (lines 254-256), not from `user.host()`; the
embedding reproduces that literally. -/

structure User where
  raw : String
  nick : String
  user : Option String
  host : Option String
  deriving DecidableEq, Repr

def optBytes : Option String → LuaVal
  | none => LuaVal.nil
  | some v => LuaVal.str v

def push_user (u : User) : LuaTable :=
  [ (LuaVal.str "raw", LuaVal.str u.raw),
    (LuaVal.str "nick", LuaVal.str u.nick),
    (LuaVal.str "user", optBytes u.user),
    (LuaVal.str "host", optBytes u.user) ]

/-! ## Connection slot: getconn / activate_conn / deactivate_conn
(src/plugins/irc.rs lines 262-294)

`lua_require` stores a `*mut Conn` userdata in the registry, initialised
to null. The registry slot is modelled as an outer `Option` (whether the
userdata cell exists at all; `none` yields the "could not retrieve
connection information" error) around an inner `Option` (whether the cell
currently holds a live connection; the null pointer is `none` and yields
the "no active connection" error). A connection handle is an opaque
identifier. -/

abbrev Conn := Nat

abbrev ConnSlot := Option (Option Conn)

def initConnSlot : ConnSlot := some none

def getconn (slot : ConnSlot) : Except String Conn :=
  match slot with
  | none => Except.error "could not retrieve connection information"
  | some none => Except.error "no active connection"
  | some (some c) => Except.ok c

def activate_conn (slot : ConnSlot) (c : Conn) : Except String ConnSlot :=
  match slot with
  | none => Except.error "could not retrieve connection information"
  | some _ => Except.ok (some (some c))

def deactivate_conn (slot : ConnSlot) : Except String ConnSlot :=
  match slot with
  | none => Except.error "could not retrieve connection information"
  | some _ => Except.ok (some none)

/-! ## Events and the dispatch trace (src/plugins/irc.rs lines 97-198)

`lua_dispatch_event` pushes the event name on the Lua stack (for CTCP
family commands it also pushes the CTCP command name and/or destination
bytes, which end up as leading handler arguments), then, for received
lines only, looks the name up in the handler registry: if the registry
table is missing, or holds no table for this name, or that table is
empty, the function returns at once; otherwise it constructs the sender
(nil, or the `push_user` table of the prefix), inserts it at stack slot
2, pushes the raw line arguments and calls `dispatch_event_inner`. The
stack operations are modelled as an ordered action trace. The handler
registry maps event names to the ordered list of registered callbacks,
here opaque identifiers; the missing registry table is the outer
`none`. -/

inductive CommandKind
  | ircCode (code : Nat)
  | ircCmd (cmd : String)
  | ircAction (dst : String)
  | ircCTCP (cmd : String) (dst : String)
  | ircCTCPReply (cmd : String) (dst : String)
  deriving DecidableEq, Repr

structure Line where
  command : CommandKind
  args : List String
  pre : Option User
  deriving DecidableEq, Repr

inductive Event
  | connected
  | disconnected
  | lineReceived (l : Line)
  deriving DecidableEq, Repr

abbrev Registry := Option (List (String × List Nat))

def lookupHandlers (reg : Registry) (name : String) : Option (List Nat) :=
  match reg with
  | none => none
  | some m =>
    match m.find? (fun p => p.1 = name) with
    | none => none
    | some p => some p.2

def hasHandlers (reg : Registry) (name : String) : Bool :=
  match lookupHandlers reg name with
  | none => false
  | some l => !l.isEmpty

def zeroPad3 (n : Nat) : String :=
  if n < 10 then "00" ++ toString n
  else if n < 100 then "0" ++ toString n
  else toString n

def namePhase : CommandKind → String × List String
  | CommandKind.ircCode code => (zeroPad3 code, [])
  | CommandKind.ircCmd cmd => (cmd, [])
  | CommandKind.ircAction dst => ("-ACTION", [dst])
  | CommandKind.ircCTCP cmd dst => ("-CTCP", [cmd, dst])
  | CommandKind.ircCTCPReply cmd dst => ("-CTCPREPLY", [cmd, dst])

inductive DispatchAction
  | pushName (s : String)
  | pushArg (s : String)
  | handlerCheck (found : Bool)
  | pushSenderNil
  | pushSenderUser (u : User)
  | pushLineArg (s : String)
  | innerDispatch
  deriving DecidableEq, Repr

def lua_dispatch_event (reg : Registry) : Event → List DispatchAction
  | Event.connected =>
    [DispatchAction.pushName "-CONNECTED", DispatchAction.innerDispatch]
  | Event.disconnected =>
    [DispatchAction.pushName "-DISCONNECTED", DispatchAction.innerDispatch]
  | Event.lineReceived l =>
    let np := namePhase l.command
    DispatchAction.pushName np.1 :: np.2.map DispatchAction.pushArg ++
    DispatchAction.handlerCheck (hasHandlers reg np.1) ::
    (if hasHandlers reg np.1 then
      (match l.pre with
       | none => [DispatchAction.pushSenderNil]
       | some u => [DispatchAction.pushSenderUser u]) ++
      l.args.map DispatchAction.pushLineArg ++ [DispatchAction.innerDispatch]
     else [])

/-! ## dispatch_event_inner (src/plugins/irc.rs lines 200-241)

For each registered handler the loop re-copies the argument stack: a
table argument is copied into a fresh table (`newtable` plus a `next`
loop transferring the key-value pairs; the pair values themselves are
copied as Lua values, so nested table references would be shared), other
values are pushed as-is, and the handler is invoked with `pcall`; an
error is printed together with the error text and the loop moves on to
the next handler. A handler is an arbitrary state transformer on the
heap that also returns success or an error text; the function returns
the final heap, the per-handler outcomes in invocation order and the log
of error texts in emission order. (The registry lookup that precedes
this loop in the source is modelled in `lua_dispatch_event` above.) -/

def copyArg (h : Heap) (v : LuaVal) : Heap × LuaVal :=
  match v with
  | LuaVal.tref r => (h ++ [(heapGet h r).getD []], LuaVal.tref h.length)
  | v => (h, v)

def copyArgs (h : Heap) : List LuaVal → Heap × List LuaVal
  | [] => (h, [])
  | v :: vs =>
    let p := copyArg h v
    let q := copyArgs p.1 vs
    (q.1, p.2 :: q.2)

abbrev Handler := Heap → List LuaVal → Heap × Except String Unit

def dispatch_event_inner (h : Heap) (args : List LuaVal) :
    List Handler → Heap × List (Except String Unit) × List String
  | [] => (h, [], [])
  | f :: fs =>
    let p := copyArgs h args
    let q := f p.1 p.2
    let rest := dispatch_event_inner q.1 args fs
    match q.2 with
    | Except.ok _ => (rest.1, Except.ok () :: rest.2.1, rest.2.2)
    | Except.error e => (rest.1, Except.error e :: rest.2.1, e :: rest.2.2)

/-- A handler that mutates its received structured argument: it writes
field k := v into the first table among its arguments (the sender table
in an actual dispatch). -/
def firstTref : List LuaVal → Option Nat
  | [] => none
  | LuaVal.tref r :: _ => some r
  | _ :: vs => firstTref vs

def mutatingHandler (k v : LuaVal) : Handler := fun h args =>
  match firstTref args with
  | some c => (heapSet h c (tableSet ((heapGet h c).getD []) k v), Except.ok ())
  | none => (h, Except.ok ())

/-! ## Claim theorems -/

/-- C1: one application of the backoff escalation of src/pkg.rs lines
81-90 maps the current delay d exactly per the step table: 0-4 to 5,
5-9 to 10, 10-19 to 20, 20-29 to 30, 30-59 to 60, 61-149 to 150,
151-299 to 300, and any value outside those ranges (60, 150, and
everything from 300 up) to d + 60. -/
theorem C1_backoff_step_table (d : Nat) :
    (d ≤ 4 → backoffStep d = 5) ∧
    (5 ≤ d ∧ d ≤ 9 → backoffStep d = 10) ∧
    (10 ≤ d ∧ d ≤ 19 → backoffStep d = 20) ∧
    (20 ≤ d ∧ d ≤ 29 → backoffStep d = 30) ∧
    (30 ≤ d ∧ d ≤ 59 → backoffStep d = 60) ∧
    (61 ≤ d ∧ d ≤ 149 → backoffStep d = 150) ∧
    (151 ≤ d ∧ d ≤ 299 → backoffStep d = 300) ∧
    (d = 60 ∨ d = 150 ∨ 300 ≤ d → backoffStep d = d + 60) := by
  unfold backoffStep
  refine ⟨?_, ?_, ?_, ?_, ?_, ?_, ?_, ?_⟩ <;> intro h <;> split_ifs <;> omega

/-- Witness for C1 at the concrete delays 3 and 60. -/
theorem C1_backoff_step_table_witness :
    backoffStep 3 = 5 ∧ backoffStep 60 = 120 :=
  ⟨(C1_backoff_step_table 3).1 (by decide),
   (C1_backoff_step_table 60).2.2.2.2.2.2.2 (Or.inl rfl)⟩

/-- C2: when a connection attempt ends in an error, an IOError resets the
backoff delay to the configured initial reconnect time before the next
retry (the sleep preceding the next attempt lasts exactly
conf.reconnectTime), while any other error class leaves the current
delay unchanged (the next sleep lasts the current delay). -/
theorem C2_error_class_and_backoff (conf : Config) (delay : Option Nat)
    (chan : Nat) (rs : List ConnResult) :
    firstSleep (supervise conf delay chan (ConnResult.err ConnError.errIO :: rs)) =
      conf.reconnectTime ∧
    firstSleep (supervise conf delay chan (ConnResult.err ConnError.other :: rs)) =
      delay := by
  constructor
  · cases h : conf.reconnectTime with
    | none => simp [supervise, firstSleep, sleeps, h]
    | some t => simp [supervise, firstSleep, sleeps, h]
  · cases delay with
    | none => simp [supervise, firstSleep, sleeps]
    | some d => simp [supervise, firstSleep, sleeps]

/-- C3 counterexample: with reconnectTime = Some 5, reconnectBackoff =
true and three consecutive IOError failures, the run sleeps 5, 5, 5
seconds, not 5, 10, 20: each IOError resets the delay to the initial 5
(src/pkg.rs lines 63-69) before the sleep, discarding the escalation of
the previous iteration. -/
theorem C3_counterexample :
    sleeps (runSupervisor ⟨some 5, true⟩
      [ConnResult.err ConnError.errIO, ConnResult.err ConnError.errIO,
       ConnResult.err ConnError.errIO]) = [5, 5, 5] ∧
    sleeps (runSupervisor ⟨some 5, true⟩
      [ConnResult.err ConnError.errIO, ConnResult.err ConnError.errIO,
       ConnResult.err ConnError.errIO]) ≠ [5, 10, 20] := by
  exact ⟨rfl, by decide⟩

/-- C3 amended: under reconnectTime = Some 5 and reconnectBackoff = true,
three consecutive IOError failures produce the sleep sequence 5, 5, 5
seconds, because every IOError resets the delay to the configured
initial value before the sleep. -/
theorem C3_amended_sleep_sequence :
    sleeps (runSupervisor ⟨some 5, true⟩
      [ConnResult.err ConnError.errIO, ConnResult.err ConnError.errIO,
       ConnResult.err ConnError.errIO]) = [5, 5, 5] := by
  decide

theorem supervise_slotSetPrecedesAttempt (conf : Config) :
    ∀ (rs : List ConnResult) (delay : Option Nat) (chan : Nat),
      slotSetPrecedesAttempt (supervise conf delay chan rs) = true := by
  intro rs
  induction rs with
  | nil => intro delay chan; simp [supervise, slotSetPrecedesAttempt]
  | cons r rs ih =>
    intro delay chan
    cases r with
    | ok => simp [supervise, slotSetPrecedesAttempt]
    | err e =>
      cases e with
      | errIO =>
        cases h : conf.reconnectTime with
        | none => simp [supervise, slotSetPrecedesAttempt, h]
        | some t => simp [supervise, slotSetPrecedesAttempt, h, ih]
      | other =>
        cases delay with
        | none => simp [supervise, slotSetPrecedesAttempt]
        | some d => simp [supervise, slotSetPrecedesAttempt, ih]

theorem supervise_failureClearsSlot (conf : Config) :
    ∀ (rs : List ConnResult) (delay : Option Nat) (chan : Nat),
      failureClearsSlot (supervise conf delay chan rs) = true := by
  intro rs
  induction rs with
  | nil => intro delay chan; simp [supervise, failureClearsSlot]
  | cons r rs ih =>
    intro delay chan
    cases r with
    | ok => simp [supervise, failureClearsSlot]
    | err e =>
      cases e with
      | errIO =>
        cases h : conf.reconnectTime with
        | none => simp [supervise, failureClearsSlot, h]
        | some t => simp [supervise, failureClearsSlot, h, ih]
      | other =>
        cases delay with
        | none => simp [supervise, failureClearsSlot]
        | some d => simp [supervise, failureClearsSlot, ih]

theorem supervise_successEndsTrace (conf : Config) :
    ∀ (rs : List ConnResult) (delay : Option Nat) (chan : Nat),
      successEndsTrace (supervise conf delay chan rs) = true := by
  intro rs
  induction rs with
  | nil => intro delay chan; simp [supervise, successEndsTrace]
  | cons r rs ih =>
    intro delay chan
    cases r with
    | ok => simp [supervise, successEndsTrace]
    | err e =>
      cases e with
      | errIO =>
        cases h : conf.reconnectTime with
        | none => simp [supervise, successEndsTrace, h]
        | some t => simp [supervise, successEndsTrace, h, ih]
      | other =>
        cases delay with
        | none => simp [supervise, successEndsTrace]
        | some d => simp [supervise, successEndsTrace, ih]

/-- C8 counterexample: the claim says the slot is reset to None after
every connection attempt ends, success included; but on a graceful quit
the loop breaks (src/pkg.rs line 58) before the clear at line 73, so
the trace of a successful attempt ends right after the attempt and
contains no slot clear. -/
theorem C8_counterexample :
    runSupervisor ⟨some 5, true⟩ [ConnResult.ok] =
      [SupEvent.slotSet 0, SupEvent.attempt 0 ConnResult.ok] ∧
    SupEvent.slotCleared ∉ runSupervisor ⟨some 5, true⟩ [ConnResult.ok] := by
  exact ⟨rfl, by decide⟩

/-- C8 amended: in every supervisor trace the slot is set to Some only
immediately before a connection attempt, every failed attempt is
immediately followed by the reset of the slot to None, and a successful
(graceful-quit) attempt is the last step of the trace: the loop exits
and the process terminates without clearing the slot. -/
theorem C8_amended_slot_discipline (conf : Config) (delay : Option Nat)
    (chan : Nat) (rs : List ConnResult) :
    slotSetPrecedesAttempt (supervise conf delay chan rs) = true ∧
    failureClearsSlot (supervise conf delay chan rs) = true ∧
    successEndsTrace (supervise conf delay chan rs) = true :=
  ⟨supervise_slotSetPrecedesAttempt conf rs delay chan,
   supervise_failureClearsSlot conf rs delay chan,
   supervise_successEndsTrace conf rs delay chan⟩

theorem sigRun_concat (steps : List ProcStep) (p : ProcStep) :
    sigRun (steps ++ [p]) = sigStep (sigRun steps) p := by
  simp [sigRun, List.foldl_append]

/-- C9 counterexample: the first attempt fails without any interrupt, so
its one-shot handler task stays registered; the second attempt registers
a second handler; the first interrupt delivery then reaches both live
handlers and two quit Commands are generated, contradicting both the
at-most-one and the exactly-one-on-first-delivery parts of the claim. -/
theorem C9_counterexample :
    (sigRun [ProcStep.newAttempt, ProcStep.newAttempt, ProcStep.interrupt]).quits = 2 ∧
    ¬ (sigRun [ProcStep.newAttempt, ProcStep.newAttempt, ProcStep.interrupt]).quits ≤ 1 := by
  decide

/-- C9 amended: each connection attempt spawns its own one-shot signal
handler; every handler generates at most one quit Command and
deregisters after its first interrupt, so the total number of quit
Commands ever generated plus the handlers still registered equals the
number of connection attempts (at most one quit Command per attempt,
not one per process lifetime), and once all handlers have fired, a
further interrupt generates no additional quit Command. -/
theorem C9_amended_one_shot_per_attempt (steps : List ProcStep) :
    (sigRun steps).quits + (sigRun steps).registered = countAttempts steps ∧
    (sigRun (steps ++ [ProcStep.interrupt, ProcStep.interrupt])).quits =
      (sigRun (steps ++ [ProcStep.interrupt])).quits := by
  constructor
  · have main : ∀ (l : List ProcStep) (s : SigState),
        (l.foldl sigStep s).quits + (l.foldl sigStep s).registered =
          s.quits + s.registered + countAttempts l := by
      intro l
      induction l with
      | nil => intro s; simp [countAttempts]
      | cons p l ih =>
        intro s
        cases p with
        | newAttempt =>
          have h := ih ⟨s.registered + 1, s.quits⟩
          simp [sigStep, countAttempts, List.countP_cons] at h ⊢
          omega
        | interrupt =>
          have h := ih ⟨0, s.quits + s.registered⟩
          simp [sigStep, countAttempts, List.countP_cons] at h ⊢
          omega
    simpa [sigRun] using main steps ⟨0, 0⟩
  · have h2 : steps ++ [ProcStep.interrupt, ProcStep.interrupt] =
        (steps ++ [ProcStep.interrupt]) ++ [ProcStep.interrupt] := by simp
    rw [h2, sigRun_concat, sigRun_concat]
    simp [sigStep]

/-- C5 counterexample: an IRCAction line whose event name has no
registered handler. The claim says dispatch performs no argument
marshalling before the handler-registry check; but the name phase of
lua_dispatch_event pushes the destination bytes of the CTCP action
(src/plugins/irc.rs line 138), which become a positional handler
argument, before the check at lines 152-162, so the trace for an empty
registry still contains that argument push. -/
theorem C5_counterexample :
    DispatchAction.pushArg "#chan" ∈
      lua_dispatch_event none
        (Event.lineReceived ⟨CommandKind.ircAction "#chan", ["hi"], none⟩) ∧
    hasHandlers none "-ACTION" = false := by
  exact ⟨by decide, rfl⟩

/-- C5 amended: for a received line event whose translated name has no
(or an empty) handler list, dispatch returns immediately after the
handler check: no sender record is constructed, no line argument is
pushed and no handler invocation happens; what precedes the check is
only the name phase, which for the CTCP family has already pushed the
CTCP command name and/or destination, while for numeric and plain named
commands it pushes nothing beyond the event name. -/
theorem C5_amended_early_return (reg : Registry) (l : Line)
    (h : hasHandlers reg (namePhase l.command).1 = false) :
    lua_dispatch_event reg (Event.lineReceived l) =
      DispatchAction.pushName (namePhase l.command).1 ::
        (namePhase l.command).2.map DispatchAction.pushArg ++
        [DispatchAction.handlerCheck false] ∧
    DispatchAction.pushSenderNil ∉ lua_dispatch_event reg (Event.lineReceived l) ∧
    (∀ u, DispatchAction.pushSenderUser u ∉
      lua_dispatch_event reg (Event.lineReceived l)) ∧
    (∀ s, DispatchAction.pushLineArg s ∉
      lua_dispatch_event reg (Event.lineReceived l)) ∧
    DispatchAction.innerDispatch ∉ lua_dispatch_event reg (Event.lineReceived l) ∧
    (∀ code, l.command = CommandKind.ircCode code → (namePhase l.command).2 = []) ∧
    (∀ cmd, l.command = CommandKind.ircCmd cmd → (namePhase l.command).2 = []) := by
  have heq : lua_dispatch_event reg (Event.lineReceived l) =
      DispatchAction.pushName (namePhase l.command).1 ::
        (namePhase l.command).2.map DispatchAction.pushArg ++
        [DispatchAction.handlerCheck false] := by
    simp [lua_dispatch_event, h]
  refine ⟨heq, ?_, ?_, ?_, ?_, ?_, ?_⟩
  · rw [heq]; simp
  · intro u; rw [heq]; simp
  · intro s; rw [heq]; simp
  · rw [heq]; simp
  · intro code hc; rw [hc]; rfl
  · intro cmd hc; rw [hc]; rfl

/-- Witness for C5 amended: a PRIVMSG line dispatched against a registry
that only has a JOIN handler. -/
theorem C5_amended_early_return_witness :
    hasHandlers (some [("JOIN", [0])]) "PRIVMSG" = false ∧
    lua_dispatch_event (some [("JOIN", [0])])
        (Event.lineReceived ⟨CommandKind.ircCmd "PRIVMSG", ["#chan", "hi"], none⟩) =
      [DispatchAction.pushName "PRIVMSG", DispatchAction.handlerCheck false] := by
  refine ⟨by decide, ?_⟩
  have h := C5_amended_early_return (some [("JOIN", [0])])
    ⟨CommandKind.ircCmd "PRIVMSG", ["#chan", "hi"], none⟩ (by decide)
  simpa [namePhase] using h.1

/-- C6: dispatch_event_inner invokes every handler of the list exactly
once (the outcome list has one entry per registered handler, in order),
and the error text of every failing handler is caught and logged; a
failing handler never prevents the invocation of the remaining
handlers. -/
theorem C6_handler_error_isolation (h : Heap) (args : List LuaVal)
    (handlers : List Handler) :
    ((dispatch_event_inner h args handlers).2.1).length = handlers.length ∧
    (∀ e, Except.error e ∈ (dispatch_event_inner h args handlers).2.1 →
      e ∈ (dispatch_event_inner h args handlers).2.2) := by
  induction handlers generalizing h with
  | nil => simp [dispatch_event_inner]
  | cons f fs ih =>
    constructor
    · cases hq : (f (copyArgs h args).1 (copyArgs h args).2).2 with
      | ok u => simp [dispatch_event_inner, hq, (ih _).1]
      | error e1 => simp [dispatch_event_inner, hq, (ih _).1]
    · cases hq : (f (copyArgs h args).1 (copyArgs h args).2).2 with
      | ok u =>
        intro e he
        simp [dispatch_event_inner, hq] at he ⊢
        exact (ih _).2 e he
      | error e1 =>
        intro e he
        simp [dispatch_event_inner, hq] at he ⊢
        rcases he with rfl | he
        · exact Or.inl rfl
        · exact Or.inr ((ih _).2 e he)

/-- Witness for C6: two handlers, the first raising an error; both are
invoked and the error text is logged. -/
theorem C6_handler_error_isolation_witness :
    ((dispatch_event_inner [] []
      [fun h _ => (h, Except.error "boom"),
       fun h _ => (h, Except.ok ())]).2.1).length = 2 ∧
    "boom" ∈ (dispatch_event_inner [] []
      [fun h _ => (h, Except.error "boom"),
       fun h _ => (h, Except.ok ())]).2.2 := by
  refine ⟨(C6_handler_error_isolation [] [] _).1, ?_⟩
  exact (C6_handler_error_isolation [] [] _).2 "boom" (by
    simp [dispatch_event_inner, copyArgs])

/-- C7: any scripting call that requests the live connection handle while
it is unbound fails with the explicit catchable error string
"no active connection": the slot starts unbound after lua_require
initialises the userdata cell to null, deactivate_conn always leaves it
unbound, and getconn only ever returns the connection that the slot
currently holds, never a stale reference. -/
theorem C7_no_active_connection (slot slot1 : ConnSlot) :
    getconn initConnSlot = Except.error "no active connection" ∧
    (deactivate_conn slot = Except.ok slot1 →
      getconn slot1 = Except.error "no active connection") ∧
    (∀ c : Conn, getconn slot = Except.ok c → slot = some (some c)) := by
  refine ⟨rfl, ?_, ?_⟩
  · intro hd
    cases slot with
    | none => simp [deactivate_conn] at hd
    | some x =>
      simp [deactivate_conn] at hd
      rw [← hd]
      rfl
  · intro c hc
    cases slot with
    | none => simp [getconn] at hc
    | some x =>
      cases x with
      | none => simp [getconn] at hc
      | some c1 =>
        simp [getconn] at hc
        rw [hc]

/-- Witness for C7: deactivating a bound slot makes getconn fail with the
explicit error. -/
theorem C7_no_active_connection_witness :
    getconn (some none : ConnSlot) = Except.error "no active connection" :=
  (C7_no_active_connection (some (some 3)) (some none)).2.1 rfl

/-- C10 (code bug): push_user builds the sender table with raw, nick and
user taken from the corresponding accessors, but fills the host field
from user.user() as well (src/plugins/irc.rs lines 254-257), so for a
prefix with username u and hostname h the Lua table carries host = u,
contradicting the module documentation (lines 34-35) and the claim. -/
theorem C10_push_user_host_field :
    tableGet (push_user ⟨"n!u@h", "n", some "u", some "h"⟩)
      (LuaVal.str "raw") = some (LuaVal.str "n!u@h") ∧
    tableGet (push_user ⟨"n!u@h", "n", some "u", some "h"⟩)
      (LuaVal.str "nick") = some (LuaVal.str "n") ∧
    tableGet (push_user ⟨"n!u@h", "n", some "u", some "h"⟩)
      (LuaVal.str "user") = some (LuaVal.str "u") ∧
    tableGet (push_user ⟨"n!u@h", "n", some "u", some "h"⟩)
      (LuaVal.str "host") = some (LuaVal.str "u") ∧
    tableGet (push_user ⟨"n!u@h", "n", some "u", some "h"⟩)
      (LuaVal.str "host") ≠ some (LuaVal.str "h") := by
  decide

theorem copyArgs_no_tref (h : Heap) (vs : List LuaVal)
    (hvs : ∀ x ∈ vs, isTref x = false) : copyArgs h vs = (h, vs) := by
  induction vs with
  | nil => rfl
  | cons v vs ih =>
    have hv : isTref v = false := hvs v (List.mem_cons_self v vs)
    have hcv : copyArg h v = (h, v) := by
      cases v with
      | nil => rfl
      | str s => rfl
      | tref r => simp [isTref] at hv
    simp [copyArgs, hcv, ih fun x hx => hvs x (List.mem_cons_of_mem v hx)]

theorem copyArgs_shape (h : Heap) (s : String) (r : Nat) (t : LuaTable)
    (rest : List LuaVal) (ht : heapGet h r = some t)
    (hrest : ∀ x ∈ rest, isTref x = false) :
    copyArgs h (LuaVal.str s :: LuaVal.tref r :: rest) =
      (h ++ [t], LuaVal.str s :: LuaVal.tref h.length :: rest) := by
  simp [copyArgs, copyArg, ht, copyArgs_no_tref (h ++ [t]) rest hrest]

theorem push_user_flat (u : User) : ∀ p ∈ push_user u, isTref p.2 = false := by
  intro p hp
  simp [push_user] at hp
  rcases hp with rfl | rfl | rfl | rfl
  · rfl
  · rfl
  · cases u.user <;> rfl
  · cases u.user <;> rfl

/-- C4: deep-copy isolation of structured arguments between handlers of
one dispatch and across dispatches. The only structured value an actual
dispatch carries is the sender table built by push_user, and that table
is flat (no value in it is a table reference), so the per-handler
one-level copy of dispatch_event_inner duplicates everything the
handler can reach through it. For an argument stack of the dispatched
shape (event name, sender table at address r, scalar line arguments)
whose first handler mutates its received structured argument: the first
handler receives a fresh copy at address h.length, the base table at r
keeps its original content after the mutation (so a later dispatch
observes nothing of it), and the second handler receives a distinct
fresh copy that still carries the original, unmutated content. -/
theorem C4_deep_copy_isolation (h : Heap) (s : String) (r : Nat)
    (t : LuaTable) (rest : List LuaVal) (k v : LuaVal)
    (ht : heapGet h r = some t) (hrest : ∀ x ∈ rest, isTref x = false) :
    (∀ (u : User), ∀ p ∈ push_user u, isTref p.2 = false) ∧
    (copyArgs h (LuaVal.str s :: LuaVal.tref r :: rest)).2 =
      LuaVal.str s :: LuaVal.tref h.length :: rest ∧
    heapGet (dispatch_event_inner h (LuaVal.str s :: LuaVal.tref r :: rest)
      [mutatingHandler k v]).1 r = some t ∧
    (copyArgs (dispatch_event_inner h (LuaVal.str s :: LuaVal.tref r :: rest)
      [mutatingHandler k v]).1 (LuaVal.str s :: LuaVal.tref r :: rest)).2 =
      LuaVal.str s :: LuaVal.tref (h.length + 1) :: rest ∧
    LuaVal.tref (h.length + 1) ≠ LuaVal.tref h.length ∧
    heapGet (copyArgs (dispatch_event_inner h (LuaVal.str s :: LuaVal.tref r :: rest)
      [mutatingHandler k v]).1 (LuaVal.str s :: LuaVal.tref r :: rest)).1
      (h.length + 1) = some t := by
  have hr : r < h.length := by
    have h1 : List.get? h r = some t := ht
    rw [List.get?_eq_getElem?] at h1
    exact (List.getElem?_eq_some.mp h1).1
  have hcopy := copyArgs_shape h s r t rest ht hrest
  have hget : heapGet (h ++ [t]) h.length = some t := by
    simp [heapGet, List.get?_eq_getElem?]
  have hmut : mutatingHandler k v (h ++ [t])
      (LuaVal.str s :: LuaVal.tref h.length :: rest) =
      (heapSet (h ++ [t]) h.length (tableSet t k v), Except.ok ()) := by
    simp [mutatingHandler, firstTref, hget]
  have hD : (dispatch_event_inner h (LuaVal.str s :: LuaVal.tref r :: rest)
      [mutatingHandler k v]).1 = heapSet (h ++ [t]) h.length (tableSet t k v) := by
    simp [dispatch_event_inner, hcopy, hmut]
  have hD_get : heapGet (heapSet (h ++ [t]) h.length (tableSet t k v)) r = some t := by
    have hne : h.length ≠ r := by omega
    have h1 : List.get? h r = some t := ht
    rw [List.get?_eq_getElem?] at h1
    simp [heapGet, heapSet, List.get?_eq_getElem?, List.getElem?_set_ne hne,
      List.getElem?_append_left hr, h1]
  have hlen : (heapSet (h ++ [t]) h.length (tableSet t k v)).length = h.length + 1 := by
    simp [heapSet]
  have hcopy2 := copyArgs_shape (heapSet (h ++ [t]) h.length (tableSet t k v))
    s r t rest hD_get hrest
  refine ⟨fun u => push_user_flat u, ?_, ?_, ?_, ?_, ?_⟩
  · rw [hcopy]
  · rw [hD]
    exact hD_get
  · rw [hD, hcopy2]
    simp [hlen]
  · simp
  · rw [hD, hcopy2]
    have : (heapSet (h ++ [t]) h.length (tableSet t k v) ++ [t]).get?
        (h.length + 1) = some t := by
      rw [← hlen]
      simp [List.get?_eq_getElem?]
    exact this

/-- Witness for C4: one concrete dispatch with a mutating first handler;
the base sender table keeps its original content. -/
theorem C4_deep_copy_isolation_witness :
    heapGet (dispatch_event_inner [[(LuaVal.str "x", LuaVal.str "a")]]
      [LuaVal.str "PRIVMSG", LuaVal.tref 0, LuaVal.str "hello"]
      [mutatingHandler (LuaVal.str "x") (LuaVal.str "b")]).1 0 =
      some [(LuaVal.str "x", LuaVal.str "a")] :=
  (C4_deep_copy_isolation [[(LuaVal.str "x", LuaVal.str "a")]] "PRIVMSG" 0
    [(LuaVal.str "x", LuaVal.str "a")] [LuaVal.str "hello"]
    (LuaVal.str "x") (LuaVal.str "b") rfl (by decide)).2.2.1
